import Mathlib

/- Shallow embedding of the SIR (Store-Ignore-Recall) simulation: the
reward/entropy-modulated learning-rate controller (Sim.CalcEntropy,
Sim.ApplyReward), trial input application (Sim.ApplyInputs), the scheduler
configuration produced by Sim.ConfigLoops (the NZeroStop IsDone predicate, the
TestAtInterval OnStart hook, the ApplyReward cycle-event registration) and the
Test sub-run entry point (Sim.TestAll).  Float32 arithmetic of the source is
modelled with exact reals, Go ints with integers.  Collaborator operations
whose source is not part of the repository snapshot (the SIREnv environment
methods, the looper stack runner, and leabra network entry points) are
modelled from the specification and marked as such in their doc comments. -/

/-- Execution modes of the looper stacks (etime.Train and etime.Test). -/
inductive Modes where
  | Train
  | Test
  deriving DecidableEq

/-- Actions of the Store-Ignore-Recall environment (SIREnv). -/
inductive Actions where
  | Store1
  | Store2
  | Ignore
  | Recall1
  | Recall2
  deriving DecidableEq

/-- CalcEntropy computes the entropy-based learning-rate multiplier from
activations, following Sim.CalcEntropy of the source line by line.  The two
list arguments stand for the per-unit AvgM values read from the Hidden layer
(variant A, entropyMeasureType true) and from the GPiThal layer (variant B,
entropyMeasureType false).  The local variable prob of the source is inlined
as v / totalActivation. -/
noncomputable def CalcEntropy (modLearnRate entropyMeasureType : Bool)
    (hiddenAvgM gpiThalAvgM : List ℝ) : ℝ :=
  if !modLearnRate then 1
  else if entropyMeasureType then
    let tmpVals := hiddenAvgM
    let maxAct := List.foldl (fun m v => max m v) 0 tmpVals
    let ent := List.foldl (fun e v => e + v) 0 tmpVals
    let ent := ent / 10
    if maxAct < 0.02 ∨ ent > 4 then 4
    else if ent < 0.25 then 0.25
    else ent
  else
    let tmpVals := gpiThalAvgM
    let totalActivation := List.foldl (fun t v => t + v) 0 tmpVals
    let ent :=
      if totalActivation > 0 then
        List.foldl
          (fun e v =>
            if v / totalActivation > 0 then
              e - v / totalActivation * Real.log (v / totalActivation)
            else e)
          0 tmpVals
      else (0 : ℝ)
    let ent := ent / 2.77
    if ent > 4 then 4
    else if ent < 0.25 then 0.25
    else ent

/-- Clamp into the closed interval from 0.25 to 4, the spec wording "clamped
into [0.25, 4.0]". -/
noncomputable def clampMult (x : ℝ) : ℝ := max 0.25 (min 4 x)

/-- Maximum unit activation of a layer as accumulated by the source loop: the
running maximum starts at 0, so this is max 0 (true maximum).  It is below the
0.02 threshold exactly when the true maximum of a nonempty list is. -/
noncomputable def maxUnitAct (acts : List ℝ) : ℝ :=
  List.foldl (fun m v => max m v) 0 acts

/-- Variant A (population-sum) of the entropy measure exactly as claim C6
states it: the sum of the per-unit average activations divided by 10, clamped
into [0.25, 4.0], except that the multiplier is forced to 4.0 whenever the
maximum unit activation is below 0.02. -/
noncomputable def variantASpec (acts : List ℝ) : ℝ :=
  if maxUnitAct acts < 0.02 then 4 else clampMult (acts.sum / 10)

/-- Shannon entropy of the activation vector normalized into a probability
distribution, as claim C7 states it: units with zero (or negative) probability
are skipped, and the entropy is taken as 0 when the total activation is not
positive. -/
noncomputable def shannonEntropySpec (acts : List ℝ) : ℝ :=
  let total := acts.sum
  if total > 0 then
    -((acts.map fun v =>
        if v / total > 0 then v / total * Real.log (v / total) else 0).sum)
  else 0

/-- Variant B exactly as claim C7 states it: the Shannon entropy divided by the
maximum possible entropy for the unit count of the layer (the natural log of
the unit count, attained by the uniform distribution), then clamped. -/
noncomputable def variantBClaimSpec (acts : List ℝ) : ℝ :=
  clampMult (shannonEntropySpec acts / Real.log (acts.length : ℝ))

/-- Variant B as the source implements it: the Shannon entropy divided by the
fixed constant 2.77 (the source comment calls it the approximate maximum
entropy for 16 units; the exact value would be log 16), then clamped. -/
noncomputable def variantBAmendedSpec (acts : List ℝ) : ℝ :=
  clampMult (shannonEntropySpec acts / 2.77)

/-- Environment state of the Store-Ignore-Recall task.  The fields act, Trial
and the RewVal / NoRewVal targets mirror the SIREnv collaborator; the source
of SIREnv itself is not part of the snapshot, so the remaining fields are
modelled from the spec: expectedIndex is the expected correct output index for
the current action, schedule is the fixed upcoming action sequence, and
patterns gives the per-layer input pattern for the current step. -/
structure SIREnv where
  act : Actions
  trial : ℤ
  expectedIndex : ℕ
  rew : ℝ
  rewVal : ℝ
  noRewVal : ℝ
  schedule : List Actions
  patterns : String → Option (List ℝ)

/-- Modelled from the spec: SetReward compares the given output index against
the expected correct index for the current action and stores the binary reward
(RewVal on a match, NoRewVal otherwise). -/
def SIREnv.SetReward (en : SIREnv) (idx : ℕ) : SIREnv :=
  { en with rew := if idx = en.expectedIndex then en.rewVal else en.noRewVal }

/-- Modelled from the spec: State reports the named layer pattern for the
current step; the Rew layer pattern is the one-element reward representation. -/
def SIREnv.State (en : SIREnv) (layNm : String) : Option (List ℝ) :=
  if layNm = "Rew" then some [en.rew] else en.patterns layNm

/-- Modelled from the spec: Step advances the trial counter and draws the next
action from the configured schedule. -/
def SIREnv.Step (en : SIREnv) : SIREnv :=
  match en.schedule with
  | [] => { en with trial := en.trial + 1 }
  | a :: rest => { en with act := a, schedule := rest, trial := en.trial + 1 }

/-- Modelled from the spec: Init(0) resets the environment, with the first
action forced to a Store variant, trial counter zero and no reward pending. -/
def SIREnv.InitEnv (en : SIREnv) : SIREnv :=
  { en with trial := 0, act := Actions.Store1, rew := en.noRewVal }

/-- Modelled from the spec: a human-readable description of the current trial,
the return of the String method of the environment. -/
def SIREnv.describe (en : SIREnv) : String :=
  match en.act with
  | Actions.Store1 => "Store1"
  | Actions.Store2 => "Store2"
  | Actions.Ignore => "Ignore"
  | Actions.Recall1 => "Recall1"
  | Actions.Recall2 => "Recall2"

/-- Interface state of the external leabra network as consumed by the SIR sim:
per-layer external input patterns, per-layer sizes, the argmax index of the
Output layer pool, the AvgM unit values of the Hidden and GPiThal layers, and
the per-pathway learning-rate state touched by LrateMult. -/
structure NetState where
  ext : String → List ℝ
  layerSize : String → ℕ
  outputMaxIndex : ℕ
  hiddenAvgM : List ℝ
  gpiThalAvgM : List ℝ
  lrateInit : String → ℝ
  lrate : String → ℝ
  recvPathsNonempty : String → Bool

/-- Modelled from the spec (AdjustLearningRate collaborator call): LrateMult
sets the learning rate of the receiving pathways of the named layer to the
initial learning rate times the multiplier. -/
def LrateMult (nm : String) (mult : ℝ) (net : NetState) : NetState :=
  { net with lrate := Function.update net.lrate nm (net.lrateInit nm * mult) }

/-- Modelled from the spec: Network.InitExt resets the external input state of
every layer (zeroing all external input values), called prior to applying new
external inputs. -/
def InitExt (net : NetState) : NetState :=
  { net with ext := fun nm => List.replicate (net.layerSize nm) 0 }

/-- State of the SIR Sim as touched by ApplyInputs and ApplyReward: the two
configuration switches for the entropy controller, the context mode, the Train
and Test environments, the network interface state, and the statistics maps. -/
structure SimState where
  modLearnRate : Bool
  entropyMeasureType : Bool
  ctxMode : Modes
  trainEnv : SIREnv
  testEnv : SIREnv
  net : NetState
  stats : String → ℝ
  intStats : String → ℤ
  strStats : String → String

/-- Layer names of type InputLayer or TargetLayer in the SIR network, in build
order from Sim.ConfigNet: AddRWLayers adds Rew (an input layer) first, then
Input, CtrlInput (inputs) and Output (target) are added; all other layers of
the network have other types.  This is the list LayersByType(InputLayer,
TargetLayer) iterated by ApplyInputs. -/
def inputTargetLayers : List String := ["Rew", "Input", "CtrlInput", "Output"]

/-- Per-layer body of the ApplyInputs loop: skip the layer named Rew, otherwise
apply the environment pattern for the layer as external input when it exists. -/
def applyInputsLayerStep (en : SIREnv) (net : NetState) (lnm : String) : NetState :=
  if lnm = "Rew" then net
  else
    match en.State lnm with
    | some pats => { net with ext := Function.update net.ext lnm pats }
    | none => net

/-- ApplyInputs applies input patterns from the environment of the current
context mode, following Sim.ApplyInputs of the source: step the environment,
list the input/target layers, reset all external inputs (InitExt), record the
trial name statistic, then apply the per-layer patterns, skipping Rew. -/
def ApplyInputs (ss : SimState) : SimState :=
  let en :=
    match ss.ctxMode with
    | Modes.Train => ss.trainEnv
    | Modes.Test => ss.testEnv
  let en := en.Step
  let ss :=
    match ss.ctxMode with
    | Modes.Train => { ss with trainEnv := en }
    | Modes.Test => { ss with testEnv := en }
  let net := InitExt ss.net
  let strStats := Function.update ss.strStats "TrialName" en.describe
  let net := List.foldl (applyInputsLayerStep en) net inputTargetLayers
  { ss with net := net, strStats := strStats }

/-- ApplyReward computes the reward from the network output and applies it,
following Sim.ApplyReward of the source: pick the environment of the given
mode, return immediately unless the current action is Recall1 or Recall2,
otherwise set the binary reward from the Output argmax index, clamp the reward
pattern onto the Rew layer, compute the entropy multiplier and apply it to the
MatrixGo, MatrixNoGo and RWPred layers, recording the resulting learning
rates as statistics when the layers have receiving pathways. -/
noncomputable def ApplyReward (train : Bool) (ss : SimState) : SimState :=
  let en := if train then ss.trainEnv else ss.testEnv
  if en.act ≠ Actions.Recall1 ∧ en.act ≠ Actions.Recall2 then ss
  else
    let mxi := ss.net.outputMaxIndex
    let en := en.SetReward mxi
    let ss := if train then { ss with trainEnv := en } else { ss with testEnv := en }
    let pats := (en.State "Rew").getD []
    let net := { ss.net with ext := Function.update ss.net.ext "Rew" pats }
    let ent := CalcEntropy ss.modLearnRate ss.entropyMeasureType net.hiddenAvgM net.gpiThalAvgM
    let net := LrateMult "MatrixGo" ent net
    let net := LrateMult "MatrixNoGo" ent net
    let net := LrateMult "RWPred" ent net
    let stats :=
      if net.recvPathsNonempty "MatrixGo" then
        Function.update ss.stats "MatrixGoLRate" (net.lrate "MatrixGo")
      else ss.stats
    let stats :=
      if net.recvPathsNonempty "MatrixNoGo" then
        Function.update stats "MatrixNoGoLRate" (net.lrate "MatrixNoGo")
      else stats
    let stats :=
      if net.recvPathsNonempty "RWPred" then
        Function.update stats "RWPredLRate" (net.lrate "RWPred")
      else stats
    { ss with net := net, stats := stats }

/-- Configuration of the SIR sim run (the Config struct of the source). -/
structure Config where
  nRuns : ℤ
  nEpochs : ℤ
  nTrials : ℤ
  nZero : ℤ
  testInterval : ℤ

/-- The NZeroStop IsDone predicate registered on the Train Epoch loop by
Sim.ConfigLoops: read the configured NZero, substitute 2 when it is not
positive, and stop when the externally maintained NZero statistic has reached
it.  It is a pure read of the statistic: it returns only a boolean and
modifies no state. -/
def NZeroStopIsDone (cfg : Config) (ss : SimState) : Bool :=
  let stopNz := cfg.nZero
  let stopNz := if stopNz ≤ 0 then 2 else stopNz
  let curNZero := ss.intStats "NZero"
  decide (curNZero ≥ stopNz)

/-- Current counter values of one looper stack (the Cur fields of the Run,
Epoch, Trial and Cycle loop counters). -/
structure Counters where
  run : ℤ
  epoch : ℤ
  trial : ℤ
  cycle : ℤ

/-- Counter values reset to zero, the effect of ResetCountersByMode. -/
def Counters.zero : Counters := { run := 0, epoch := 0, trial := 0, cycle := 0 }

/-- Scheduler-level state: the current mode selector of the Stacks manager,
the counters of the Train and Test stacks, and the simulation state the
callbacks act on. -/
structure SchedState where
  mode : Modes
  trainCounters : Counters
  testCounters : Counters
  sim : SimState

/-- Modelled from the spec: running the stack of a mode advances only the
counters of that stack (to their configured maxima; the Test stack has no Run
loop) and leaves the current mode selector and the other stack untouched.
The network and environment effects of the nested run are not modelled here;
the claims about TestAll concern only the mode selector and counters. -/
def runStack (cfg : Config) (m : Modes) (s : SchedState) : SchedState :=
  match m with
  | Modes.Train =>
      { s with trainCounters :=
          { run := cfg.nRuns, epoch := cfg.nEpochs, trial := cfg.nTrials, cycle := 100 } }
  | Modes.Test =>
      { s with testCounters :=
          { run := s.testCounters.run, epoch := 1, trial := cfg.nTrials, cycle := 100 } }

/-- Modelled from the spec: Stacks.ResetAndRun resets the counters of the given
mode, sets the current mode selector to it, and runs that stack. -/
def ResetAndRun (cfg : Config) (m : Modes) (s : SchedState) : SchedState :=
  let s :=
    match m with
    | Modes.Train => { s with trainCounters := Counters.zero }
    | Modes.Test => { s with testCounters := Counters.zero }
  runStack cfg m { s with mode := m }

/-- TestAll runs through the full set of testing items, following Sim.TestAll
of the source: initialize the Test environment, ResetAndRun the Test stack,
then set the mode selector back to Train (the source comment: important to
reset Mode back to Train because this is called from within the Train Run). -/
def TestAll (cfg : Config) (s : SchedState) : SchedState :=
  let s := { s with sim := { s.sim with testEnv := s.sim.testEnv.InitEnv } }
  let s := ResetAndRun cfg Modes.Test s
  { s with mode := Modes.Train }

/-- The TestAtInterval OnStart hook registered on the Train Epoch loop by
Sim.ConfigLoops: launch TestAll when the configured TestInterval is positive
and the successor of the current Train Epoch counter is divisible by it (Go
integer remainder is truncated division remainder, Int.tmod). -/
def TestAtInterval (cfg : Config) (s : SchedState) : SchedState :=
  if cfg.testInterval > 0 ∧ (s.trainCounters.epoch + 1).tmod cfg.testInterval = 0 then
    TestAll cfg s
  else s

/-- Cycle-loop event names added to both stacks (Train and Test) by the
leabra LooperStdPhases call in Sim.ConfigLoops; modelled from the spec: the
minus-phase boundary event and the plus-phase end event, anchored inside the
Cycle loop of every mode. -/
def stdCycleEvents : List String := ["MinusPhase:End", "PlusPhase:End"]

/-- Insert a named event immediately before the named anchor, the
InsertBefore registry operation (the anchor is present in every use below). -/
def insertBeforeEvent (anchor nm : String) : List String → List String
  | [] => []
  | e :: rest =>
      if e = anchor then nm :: e :: rest
      else e :: insertBeforeEvent anchor nm rest

/-- Cycle events of the Train stack after Sim.ConfigLoops: ApplyReward is
inserted immediately before MinusPhase:End, on the Train stack only. -/
def trainCycleEvents : List String :=
  insertBeforeEvent "MinusPhase:End" "ApplyReward" stdCycleEvents

/-- Cycle events of the Test stack after Sim.ConfigLoops: only the standard
phase events; no reward event is registered there. -/
def testCycleEvents : List String := stdCycleEvents

/-- Cycle events registered on the stack of each mode. -/
def cycleEventsOf : Modes → List String
  | Modes.Train => trainCycleEvents
  | Modes.Test => testCycleEvents

/-- Modelled from the spec: during a run of a mode, the scheduler fires exactly
the events registered on the stack of that mode; events of the other stack
never fire.  These are the cycle event names that can fire while the given
mode runs. -/
def firedCycleEventNames (m : Modes) : List String := cycleEventsOf m

/-- Concrete environment state used by witness and counterexample theorems. -/
def exEnv : SIREnv :=
  { act := Actions.Store1, trial := 0, expectedIndex := 0, rew := 0,
    rewVal := 1, noRewVal := 0, schedule := [], patterns := fun _ => none }

/-- Concrete network state used by witness and counterexample theorems; every
layer carries the one-element external pattern with value 1. -/
def exNet : NetState :=
  { ext := fun _ => [1], layerSize := fun _ => 1, outputMaxIndex := 0,
    hiddenAvgM := [], gpiThalAvgM := [], lrateInit := fun _ => 1,
    lrate := fun _ => 1, recvPathsNonempty := fun _ => true }

/-- Concrete simulation state used by witness and counterexample theorems. -/
def exSim : SimState :=
  { modLearnRate := false, entropyMeasureType := false, ctxMode := Modes.Train,
    trainEnv := exEnv, testEnv := exEnv, net := exNet,
    stats := fun _ => 0, intStats := fun _ => 0, strStats := fun _ => "" }

/-- Concrete configuration used by witness theorems. -/
def exCfg : Config :=
  { nRuns := 1, nEpochs := 3, nTrials := 4, nZero := 2, testInterval := 1 }

/-- Concrete scheduler state used by witness theorems. -/
def exSched : SchedState :=
  { mode := Modes.Train, trainCounters := Counters.zero,
    testCounters := Counters.zero, sim := exSim }

/-- Helper: a left fold of addition equals the initial value plus the sum. -/
theorem foldl_add_eq (l : List ℝ) : ∀ a : ℝ,
    List.foldl (fun e v => e + v) a l = a + l.sum := by
  induction l with
  | nil => simp
  | cons x xs ih =>
      intro a
      simp only [List.foldl_cons, List.sum_cons, ih]
      ring

/-- Helper: the two-sided clamp written as nested ifs in the source equals the
max/min form of the spec wording. -/
theorem clampIf_eq (x : ℝ) :
    (if x > 4 then (4 : ℝ) else if x < 0.25 then 0.25 else x) = clampMult x := by
  unfold clampMult
  split_ifs with h1 h2
  · rw [min_eq_left h1.le, max_eq_right]
    norm_num
  · rw [min_eq_right (by linarith), max_eq_left h2.le]
  · rw [min_eq_right (by linarith), max_eq_right (by linarith)]

/-- Helper: the entropy-accumulating fold of the source equals the initial
value minus the sum of the mapped per-unit contributions. -/
theorem foldl_entropy_eq (t : ℝ) (l : List ℝ) : ∀ e : ℝ,
    List.foldl
      (fun e v =>
        if v / t > 0 then e - v / t * Real.log (v / t) else e) e l =
    e - (l.map fun v =>
        if v / t > 0 then v / t * Real.log (v / t) else 0).sum := by
  induction l with
  | nil => simp
  | cons x xs ih =>
      intro e
      simp only [List.foldl_cons, List.map_cons, List.sum_cons, ih]
      split_ifs with h
      · ring
      · ring

/-- C8: when learning-rate modulation is disabled (ModLearnRate false),
CalcEntropy returns exactly 1 for every network state, whichever entropy
variant is selected and whatever the layer activations are. -/
theorem calcEntropy_modulation_disabled (v : Bool) (hid gpi : List ℝ) :
    CalcEntropy false v hid gpi = 1 := by
  unfold CalcEntropy
  simp

/-- Helper: the nested-if clamp of the source lies between 0.25 and 4 for
every input. -/
theorem clampIf_bounds (x : ℝ) :
    0.25 ≤ (if x > 4 then (4 : ℝ) else if x < 0.25 then 0.25 else x) ∧
      (if x > 4 then (4 : ℝ) else if x < 0.25 then 0.25 else x) ≤ 4 := by
  split_ifs with h1 h2
  · norm_num
  · norm_num
  · push_neg at h1 h2
    exact ⟨h2, h1⟩

/-- Helper: the variant A clamp shape of the source lies between 0.25 and 4
for every input. -/
theorem clampIfA_bounds (M E : ℝ) :
    0.25 ≤ (if M < 0.02 ∨ E > 4 then (4 : ℝ) else if E < 0.25 then 0.25 else E) ∧
      (if M < 0.02 ∨ E > 4 then (4 : ℝ) else if E < 0.25 then 0.25 else E) ≤ 4 := by
  split_ifs with h1 h2
  · norm_num
  · norm_num
  · push_neg at h1 h2
    exact ⟨h2, h1.2⟩

/-- C2: for every activation input vector (the all-zero and all-equal-positive
vectors included), under either entropy variant and either modulation switch,
the multiplier returned by CalcEntropy lies in the closed interval from 0.25
to 4. -/
theorem calcEntropy_in_bounds (m v : Bool) (hid gpi : List ℝ) :
    0.25 ≤ CalcEntropy m v hid gpi ∧ CalcEntropy m v hid gpi ≤ 4 := by
  unfold CalcEntropy
  rcases m with _ | _
  · norm_num
  · rcases v with _ | _
    · simp only [Bool.not_true, Bool.false_eq_true, if_false, if_true]
      exact clampIf_bounds _
    · simp only [Bool.not_true, Bool.false_eq_true, if_false, if_true]
      exact clampIfA_bounds _ _

/-- C6: with modulation enabled and entropy variant A (population-sum)
selected, CalcEntropy equals the sum of the per-unit hidden activations
divided by 10 and clamped into [0.25, 4.0], except that it is forced to 4
whenever the maximum unit activation is below 0.02, regardless of the sum. -/
theorem calcEntropy_variantA_matches_spec (hid gpi : List ℝ) :
    CalcEntropy true true hid gpi = variantASpec hid := by
  unfold CalcEntropy variantASpec maxUnitAct
  simp only [Bool.not_true, Bool.false_eq_true, if_false, if_true]
  rw [foldl_add_eq hid 0, zero_add]
  by_cases hM : List.foldl (fun m v => max m v) 0 hid < 0.02
  · simp [hM]
  · simp only [hM, false_or, if_false]
    exact clampIf_eq _

/-- C7 amended: with modulation enabled and entropy variant B (Shannon)
selected, CalcEntropy equals the Shannon entropy of the normalized GPiThal
activations (zero-probability units skipped, entropy 0 for a nonpositive
total) divided by the fixed constant 2.77, then clamped into [0.25, 4.0]; the
divisor is not the exact maximum possible entropy for the unit count of the
layer. -/
theorem calcEntropy_variantB_matches_amended (hid gpi : List ℝ) :
    CalcEntropy true false hid gpi = variantBAmendedSpec gpi := by
  unfold CalcEntropy variantBAmendedSpec shannonEntropySpec
  simp only [Bool.not_true, Bool.false_eq_true, if_false, if_true]
  rw [foldl_add_eq gpi 0, zero_add]
  by_cases ht : gpi.sum > 0
  · simp only [ht, if_true]
    rw [foldl_entropy_eq gpi.sum gpi 0, zero_sub]
    exact clampIf_eq _
  · simp only [ht, if_false]
    rw [show (0 : ℝ) / 2.77 = 0 by norm_num]
    rw [if_neg (by norm_num), if_pos (by norm_num)]
    unfold clampMult
    rw [min_eq_right (by norm_num), max_eq_left (by norm_num)]

/-- C7 counterexample: at the two-unit uniform activation vector the source
divides the Shannon entropy (log 2) by the fixed constant 2.77, giving a
multiplier just above 0.25, while the claim (division by the maximum possible
entropy for the unit count, log 2 for two units) would give exactly 1. -/
theorem calcEntropy_variantB_cex :
    CalcEntropy true false [] [1, 1] ≠ variantBClaimSpec [1, 1] := by
  have hl : (0.6931471803 : ℝ) < Real.log 2 := Real.log_two_gt_d9
  have hu : Real.log 2 < 0.6931471808 := Real.log_two_lt_d9
  have hhalf : Real.log ((1 : ℝ) / 2) = -Real.log 2 := by
    rw [one_div, Real.log_inv]
  have hmapsum :
      ([(1 : ℝ), 1].map fun v =>
        if v / 2 > 0 then v / 2 * Real.log (v / 2) else 0).sum = -Real.log 2 := by
    simp only [List.map_cons, List.map_nil, List.sum_cons, List.sum_nil]
    rw [if_pos (by norm_num : (1 : ℝ) / 2 > 0), hhalf]
    ring
  have h4 : ¬ Real.log 2 / 2.77 > 4 := by
    have : Real.log 2 / 2.77 < 4 := by
      rw [div_lt_iff₀ (by norm_num : (0 : ℝ) < 2.77)]
      linarith
    exact not_lt.mpr this.le
  have h25 : ¬ Real.log 2 / 2.77 < 0.25 := by
    have : (0.25 : ℝ) ≤ Real.log 2 / 2.77 := by
      rw [le_div_iff₀ (by norm_num : (0 : ℝ) < 2.77)]
      linarith
    exact not_lt.mpr this
  have hcode : CalcEntropy true false [] [1, 1] = Real.log 2 / 2.77 := by
    unfold CalcEntropy
    simp only [Bool.not_true, Bool.false_eq_true, if_false, if_true]
    rw [show List.foldl (fun t v => t + v) (0 : ℝ) [1, 1] = 2 by
      simp only [List.foldl_cons, List.foldl_nil]; norm_num]
    rw [if_pos (by norm_num : (2 : ℝ) > 0)]
    rw [foldl_entropy_eq 2 [1, 1] 0, zero_sub, hmapsum, neg_neg]
    rw [if_neg h4, if_neg h25]
  have hspec : variantBClaimSpec [1, 1] = 1 := by
    unfold variantBClaimSpec shannonEntropySpec clampMult
    rw [show List.sum [(1 : ℝ), 1] = 2 by
      simp only [List.sum_cons, List.sum_nil]; norm_num]
    rw [if_pos (by norm_num : (2 : ℝ) > 0), hmapsum, neg_neg]
    rw [show ((List.length [(1 : ℝ), 1] : ℕ) : ℝ) = 2 by norm_num]
    rw [div_self (by linarith : Real.log 2 ≠ 0)]
    rw [min_eq_right (by norm_num : (1 : ℝ) ≤ 4)]
    rw [max_eq_right (by norm_num : (0.25 : ℝ) ≤ 1)]
  rw [hcode, hspec]
  intro hEq
  have h277 : Real.log 2 = 2.77 := by
    field_simp at hEq
    linarith
  linarith

/-- C4: the NZeroStop predicate of the Train Epoch loop returns true exactly
when the externally maintained NZero statistic has reached the configured
NZero threshold, a configured value of zero or below being treated as the
threshold 2; the predicate only reads the statistic. -/
theorem nZeroStop_iff (cfg : Config) (ss : SimState) :
    NZeroStopIsDone cfg ss = true ↔
      ((cfg.nZero ≤ 0 ∧ 2 ≤ ss.intStats "NZero") ∨
        (0 < cfg.nZero ∧ cfg.nZero ≤ ss.intStats "NZero")) := by
  unfold NZeroStopIsDone
  simp only [decide_eq_true_eq, ge_iff_le]
  split_ifs with h <;> omega

/-- C5: the TestAtInterval OnStart hook of the Train Epoch loop launches
TestAll exactly when the configured TestInterval is strictly positive and the
successor of the epoch counter is divisible by it; any TestInterval of zero or
below disables periodic testing for every epoch. -/
theorem testAtInterval_launch_iff (cfg : Config) (s : SchedState)
    (h : 0 ≤ s.trainCounters.epoch) :
    TestAtInterval cfg s =
      if cfg.testInterval > 0 ∧ (s.trainCounters.epoch + 1) % cfg.testInterval = 0
      then TestAll cfg s else s := by
  unfold TestAtInterval
  by_cases hp : cfg.testInterval > 0
  · rw [Int.tmod_eq_emod (by linarith) hp.le]
  · rw [if_neg (fun hc => hp hc.1), if_neg (fun hc => hp hc.1)]

/-- C5 witness: at the concrete configuration with TestInterval 1 and epoch
counter 0, the hook condition evaluates and the characterization applies. -/
theorem testAtInterval_launch_iff_witness :
    0 ≤ exSched.trainCounters.epoch ∧
      TestAtInterval exCfg exSched =
        if exCfg.testInterval > 0 ∧
            (exSched.trainCounters.epoch + 1) % exCfg.testInterval = 0
        then TestAll exCfg exSched else exSched :=
  ⟨by decide, testAtInterval_launch_iff exCfg exSched (by decide)⟩

/-- C9: the ApplyReward event is registered only on the Cycle loop of the
Train stack, inserted immediately before the MinusPhase:End event, and it is
absent from the Test stack, so it never fires during a Test-mode run. -/
theorem applyReward_event_only_in_train :
    "ApplyReward" ∉ firedCycleEventNames Modes.Test ∧
      trainCycleEvents = ["ApplyReward", "MinusPhase:End", "PlusPhase:End"] := by
  decide

/-- C3: invoking the Test sub-run (TestAll) from within a running Train
context (current mode Train) leaves the mode selector equal to its value
immediately prior to the call when TestAll returns, and leaves the Train
stack counters untouched, so the enclosing Train run resumes in Train mode. -/
theorem testAll_restores_train_mode (cfg : Config) (s : SchedState)
    (h : s.mode = Modes.Train) :
    (TestAll cfg s).mode = s.mode ∧
      (TestAll cfg s).trainCounters = s.trainCounters := by
  unfold TestAll ResetAndRun runStack
  exact ⟨h.symm, rfl⟩

/-- C3 witness: at the concrete scheduler state in Train mode, TestAll
preserves the mode selector and the Train counters. -/
theorem testAll_restores_train_mode_witness :
    (TestAll exCfg exSched).mode = exSched.mode ∧
      (TestAll exCfg exSched).trainCounters = exSched.trainCounters :=
  testAll_restores_train_mode exCfg exSched rfl

/-- C1: when the current action of the active environment is any Store or
Ignore variant, ApplyReward returns the state unchanged: no reward input is
written to the network and no learning rate is adjusted. -/
theorem applyReward_skips_nonrecall (train : Bool) (ss : SimState)
    (h : (if train then ss.trainEnv else ss.testEnv).act = Actions.Store1 ∨
         (if train then ss.trainEnv else ss.testEnv).act = Actions.Store2 ∨
         (if train then ss.trainEnv else ss.testEnv).act = Actions.Ignore) :
    ApplyReward train ss = ss := by
  have hg : (if train then ss.trainEnv else ss.testEnv).act ≠ Actions.Recall1 ∧
      (if train then ss.trainEnv else ss.testEnv).act ≠ Actions.Recall2 := by
    rcases h with h | h | h <;> rw [h] <;> exact ⟨by decide, by decide⟩
  unfold ApplyReward
  rw [if_pos hg]

/-- C1 witness: at the concrete state whose Train environment action is
Store1, ApplyReward on the Train environment is the identity. -/
theorem applyReward_skips_nonrecall_witness :
    ApplyReward true exSim = exSim :=
  applyReward_skips_nonrecall true exSim (Or.inl rfl)

/-- Helper: the per-layer loop of ApplyInputs never changes the external input
of the Rew layer, whatever list of layer names it iterates over: the Rew entry
is skipped and every other entry updates only its own layer. -/
theorem applyLoop_rew_unchanged (en : SIREnv) (lays : List String) :
    ∀ net : NetState,
      (List.foldl (applyInputsLayerStep en) net lays).ext "Rew" = net.ext "Rew" := by
  induction lays with
  | nil => intro net; rfl
  | cons l ls ih =>
      intro net
      rw [List.foldl_cons, ih]
      unfold applyInputsLayerStep
      split_ifs with h
      · rfl
      · cases hs : en.State l with
        | none => rfl
        | some pats =>
            show Function.update net.ext l pats "Rew" = net.ext "Rew"
            exact Function.update_noteq (fun hh => h hh.symm) _ _

/-- C10 amended: the per-layer loop of ApplyInputs skips the layer named Rew,
so ApplyInputs never applies an environment pattern to Rew (it is written only
by ApplyReward); however the InitExt call at the start of ApplyInputs resets
the external inputs of all layers, so after ApplyInputs the Rew external input
is the cleared all-zero pattern, not the previously applied reward pattern. -/
theorem applyInputs_rew_ext (ss : SimState) :
    (ApplyInputs ss).net.ext "Rew" =
      List.replicate (ss.net.layerSize "Rew") 0 := by
  unfold ApplyInputs
  cases hm : ss.ctxMode <;>
    simp only [hm] <;>
    rw [applyLoop_rew_unchanged] <;>
    rfl

/-- C10 counterexample: at the concrete state whose Rew layer carries the
previously applied one-element reward pattern with value 1, ApplyInputs does
not leave the Rew external input untouched: InitExt clears it to zero. -/
theorem applyInputs_rew_not_untouched_cex :
    (ApplyInputs exSim).net.ext "Rew" ≠ exSim.net.ext "Rew" := by
  have h1 : (ApplyInputs exSim).net =
      List.foldl (applyInputsLayerStep exSim.trainEnv.Step)
        (InitExt exSim.net) inputTargetLayers := rfl
  have hL : (ApplyInputs exSim).net.ext "Rew" = [(0 : ℝ)] := by
    rw [h1, applyLoop_rew_unchanged]
    rfl
  rw [hL]
  show [(0 : ℝ)] ≠ [1]
  intro hEq
  have h01 : (0 : ℝ) = 1 := List.head_eq_of_cons_eq hEq
  norm_num at h01
